import Mathlib

/-!
Shallow embedding of the HubSpot thread-resolution core of the email MCP
server (`src/unnamed/part_001`).

The JavaScript source works on JSON-ish values: a thread record's fields may
be numbers, strings, or absent, and truthiness drives both the `||` fallback
chains and the `if (threadId) break` test.  We model exactly the value shapes
those code paths distinguish with `JSVal`.  Two runtime functions of the host
(`Number(string)` and `Date.parse(string)`) are modelled as parameters in a
`JSEnv`, with `none` standing for `NaN`; every theorem quantifies over the
environment.
-/

/-- A JavaScript value as discriminated by the resolution code: a (finite)
number, a string, or a missing/`undefined`/`null` field. -/
inductive JSVal where
  | num (n : Int)
  | str (s : String)
  | undef
deriving DecidableEq, Repr

/-- JavaScript truthiness for the values `JSVal` can hold: `0`, `""`,
`undefined`/`null` are falsy, everything else truthy. -/
def JSVal.truthy : JSVal → Bool
  | .num n => n != 0
  | .str s => s != ""
  | .undef => false

/-- JavaScript `a || b`: `a` if truthy, else `b`. -/
def jsOr (a b : JSVal) : JSVal :=
  if a.truthy then a else b

/-- Host-runtime string conversions used by `toTimestamp`:
`numberOfString s` models `Number(s)` and `dateParse s` models
`Date.parse(s)`, with `none` playing the role of `NaN`. -/
structure JSEnv where
  numberOfString : String → Option Int
  dateParse : String → Option Int

/-- An environment with no string parsing, used to evaluate the model on the
concrete (all-numeric) examples from the spec. -/
def defaultEnv : JSEnv :=
  { numberOfString := fun _ => none, dateParse := fun _ => none }

/-- `toTimestamp(value)` from the source: a number is returned as is; a string
goes through `Number`, then `Date.parse`, defaulting to `0` on `NaN`; any
other value yields `0`. -/
def toTimestamp (env : JSEnv) : JSVal → Int
  | .num n => n
  | .str s =>
    match env.numberOfString s with
    | some n => n
    | none =>
      match env.dateParse s with
      | some parsed => parsed
      | none => 0
  | .undef => 0

/-- A conversation-thread record as consumed by the pickers: its `id` and
`subject` and the three timestamp fields the recency chain reads. -/
structure Thread where
  id : JSVal
  subject : JSVal
  latestMessageTimestamp : JSVal
  updatedAt : JSVal
  createdAt : JSVal
deriving DecidableEq, Repr

/-- The value of `t.latestMessageTimestamp || t.updatedAt || t.createdAt`
(left-associated, as JavaScript parses it). -/
def Thread.recencyValue (t : Thread) : JSVal :=
  jsOr (jsOr t.latestMessageTimestamp t.updatedAt) t.createdAt

/-- The recency timestamp the sort comparator computes for a thread. -/
def Thread.recencyTs (env : JSEnv) (t : Thread) : Int :=
  toTimestamp env t.recencyValue

/-- The comparator `(a, b) => bTs - aTs` as the order handed to a stable
sort: `a` may come before `b` iff `bTs ≤ aTs` (descending by recency). -/
def threadBefore (env : JSEnv) (a b : Thread) : Prop :=
  Thread.recencyTs env b ≤ Thread.recencyTs env a

instance (env : JSEnv) : DecidableRel (threadBefore env) := fun a b =>
  inferInstanceAs (Decidable (Thread.recencyTs env b ≤ Thread.recencyTs env a))

/-- `pickMostRecentThread(threads)`: `null` on an empty list, otherwise the
first element of a stably sorted (descending by recency) copy of the list.
`Array.prototype.sort` is a stable sort (ES2019), so any stable sort by the
same comparator — here insertion sort — produces the identical list. -/
def pickMostRecentThread (env : JSEnv) (threads : List Thread) : Option Thread :=
  if threads.length = 0 then none
  else (List.insertionSort (threadBefore env) threads).head?

/-- Charwise lowercasing, modelling `String.prototype.toLowerCase`. -/
def strToLower (s : String) : String :=
  ⟨s.data.map Char.toLower⟩

/-- `hay.includes(needle)`: substring test. -/
def strIncludes (hay needle : String) : Bool :=
  decide (needle.data <:+: hay.data)

/-- The lowercased subject the filter predicate reads off a thread:
`typeof thread.subject === "string" ? thread.subject.toLowerCase() : ""`. -/
def Thread.subjectLower (t : Thread) : String :=
  match t.subject with
  | .str s => strToLower s
  | _ => ""

/-- The `threads.filter(...)` step of `pickThreadBySubject`: keep threads
whose subject contains the lowercased hint. -/
def subjectFilter (threads : List Thread) (subject : String) : List Thread :=
  let normalizedSubject := strToLower subject
  threads.filter (fun thread => strIncludes thread.subjectLower normalizedSubject)

/-- `pickThreadBySubject(threads, subject)`: with a falsy subject, delegate to
`pickMostRecentThread`; otherwise pick the most recent among the
subject-matching threads, falling back to the full list when the filter is
empty. -/
def pickThreadBySubject (env : JSEnv) (threads : List Thread) (subject : String) :
    Option Thread :=
  if subject = "" then pickMostRecentThread env threads
  else
    let subjectMatches := subjectFilter threads subject
    pickMostRecentThread env (if subjectMatches.length ≠ 0 then subjectMatches else threads)

/-- The query-string parameters `findThreadIdByInbox` builds for the thread
listing request: inbox id, sort key, lower time bound, page size. -/
structure QueryParams where
  inboxId : String
  sortField : String
  latestMessageTimestampAfter : Int
  limit : Nat
deriving DecidableEq, Repr

def findThreadIdByInboxParams (inboxId : String) (latestMessageTimestampAfter : Int) :
    QueryParams :=
  { inboxId := inboxId
    sortField := "latestMessageTimestamp"
    latestMessageTimestampAfter := latestMessageTimestampAfter
    limit := 20 }

/-- The JSON body of a successful listing response; `results := none` models a
body whose `results` field is not an array. -/
structure ListResponse where
  results : Option (List Thread)
deriving DecidableEq, Repr

/-- The response-processing half of `findThreadIdByInbox`: coerce `results` to
an array, pick a thread, and return `thread?.id || null`. -/
def findThreadIdByInboxPure (env : JSEnv) (subject : String) (data : ListResponse) :
    Option JSVal :=
  let threads := data.results.getD []
  match pickThreadBySubject env threads subject with
  | none => none
  | some thread => if thread.id.truthy then some thread.id else none

/-- Outcome of one `hubspotRequest` to the listing endpoint: either the
parsed JSON body, or the `HubSpot API error ...` exception thrown on a
non-ok response. -/
inductive HSResponse where
  | apiError (msg : String)
  | ok (data : ListResponse)
deriving DecidableEq, Repr

/-- Result of running the polling `for` loop of `sendEmail`:
an exception propagated out of an attempt, or the loop ended by `break`
with a truthy `threadId`, or the loop ran out of attempts with
`threadId = null`. -/
inductive LoopExit where
  | thrown (msg : String)
  | broke (threadId : JSVal)
  | exhausted
deriving DecidableEq, Repr

structure LoopRun where
  exit : LoopExit
  queryLog : List QueryParams
  sleeps : Nat
deriving DecidableEq, Repr

/-- The polling `for` loop of `sendEmail` (lines 389-400), driven by the
sequence of listing-endpoint responses for attempts `attempt, attempt+1, ...`
with `remaining` iterations left.  Each iteration issues one query (logged),
breaks on a truthy `threadId`, and sleeps `pollIntervalMs` only when the
attempt failed and was not the last one. -/
def pollLoopGo (env : JSEnv) (inboxId : String) (latestMessageTimestampAfter : Int)
    (subject : String) (responses : Nat → HSResponse) (attempt : Nat) :
    Nat → LoopRun
  | 0 => ⟨.exhausted, [], 0⟩
  | r + 1 =>
    let params := findThreadIdByInboxParams inboxId latestMessageTimestampAfter
    match responses attempt with
    | .apiError msg => ⟨.thrown msg, [params], 0⟩
    | .ok data =>
      match findThreadIdByInboxPure env subject data with
      | some threadId => ⟨.broke threadId, [params], 0⟩
      | none =>
        if r = 0 then ⟨.exhausted, [params], 0⟩
        else
          let rest := pollLoopGo env inboxId latestMessageTimestampAfter subject
            responses (attempt + 1) r
          ⟨rest.exit, params :: rest.queryLog, rest.sleeps + 1⟩

/-- The exception message thrown when every polling attempt fails. -/
def exhaustedMsg : String :=
  "Unable to locate HubSpot thread for internal comment"

/-- Observable result of the thread-resolution phase of `sendEmail`:
the final outcome (resolved thread id, or the message of the exception the
call throws), every listing query issued, the number of inter-attempt
sleeps, and the thread id `postInternalComment` was invoked on (if it was). -/
structure PollPhaseResult where
  outcome : LoopExit
  queryLog : List QueryParams
  sleeps : Nat
  commentAttemptedOn : Option JSVal
deriving DecidableEq, Repr

/-- Lines 383-410 of `sendEmail`: compute the lookback boundary once
(`emailSentAt - lookbackMs`), run the polling loop, throw
`Unable to locate HubSpot thread for internal comment` if no truthy
`threadId` was found, and otherwise post the internal comment to the
resolved thread.  In `outcome`, `.broke tid` means the phase completed and
the comment was posted to `tid`; `.thrown msg` means `sendEmail` raised. -/
def sendEmailPollPhase (env : JSEnv) (responses : Nat → HSResponse)
    (pollAttempts : Nat) (inboxId : String) (emailSentAt lookbackMs : Int)
    (subject : String) : PollPhaseResult :=
  let latestMessageTimestampAfter := emailSentAt - lookbackMs
  let run := pollLoopGo env inboxId latestMessageTimestampAfter subject responses 0
    pollAttempts
  match run.exit with
  | .thrown msg => ⟨.thrown msg, run.queryLog, run.sleeps, none⟩
  | .exhausted => ⟨.thrown exhaustedMsg, run.queryLog, run.sleeps, none⟩
  | .broke threadId => ⟨.broke threadId, run.queryLog, run.sleeps, some threadId⟩

/-- The `i`-th attempt got a well-formed response but selected no thread
(the loop's `threadId` stayed `null`). -/
def attemptNoThread (env : JSEnv) (subject : String) (responses : Nat → HSResponse)
    (i : Nat) : Prop :=
  ∃ data, responses i = .ok data ∧ findThreadIdByInboxPure env subject data = none

/-- Spec example: `{id:"A", subject:"Billing issue", ts:100}`. -/
def exampleThreadA : Thread :=
  ⟨.str "A", .str "Billing issue", .num 100, .undef, .undef⟩

/-- Spec example: `{id:"B", subject:"Billing issue", ts:200}`. -/
def exampleThreadB : Thread :=
  ⟨.str "B", .str "Billing issue", .num 200, .undef, .undef⟩

/-- Spec example: `{id:"C", subject:"Other", ts:300}`. -/
def exampleThreadC : Thread :=
  ⟨.str "C", .str "Other", .num 300, .undef, .undef⟩

def exampleThreads : List Thread :=
  [exampleThreadA, exampleThreadB, exampleThreadC]

/-- A heap of JavaScript arrays of threads, for stating what the pickers do
to their argument array.  Array identities are indices into `arrays`;
allocation appends. -/
structure Store where
  arrays : List (List Thread)
deriving Repr

/-- The contents of array `a` (a dangling id reads as `[]`). -/
def Store.get (s : Store) (a : Nat) : List Thread :=
  s.arrays.getD a []

/-- Allocate a fresh array with contents `l`; returns the new heap and the
fresh array's id. -/
def Store.alloc (s : Store) (l : List Thread) : Store × Nat :=
  (⟨s.arrays ++ [l]⟩, s.arrays.length)

/-- Overwrite the contents of array `a`. -/
def Store.set (s : Store) (a : Nat) (l : List Thread) : Store :=
  ⟨s.arrays.set a l⟩

/-- `pickMostRecentThread` in the array-mutation model: `[...threads]`
allocates a fresh array with the same elements, `.sort(...)` mutates that
fresh array in place (modelled as an explicit `set` at the copy's id), and
`[0]` reads it.  The argument array `a` is never written. -/
def pickMostRecentThreadRun (env : JSEnv) (s : Store) (a : Nat) :
    Option Thread × Store :=
  let threads := s.get a
  if threads.length = 0 then (none, s)
  else
    let alloc1 := s.alloc (s.get a)
    let s2 := alloc1.1.set alloc1.2
      (List.insertionSort (threadBefore env) (alloc1.1.get alloc1.2))
    ((s2.get alloc1.2).head?, s2)

/-- `pickThreadBySubject` in the array-mutation model: `.filter` allocates a
new array, and either it or the original array is handed to
`pickMostRecentThreadRun`. -/
def pickThreadBySubjectRun (env : JSEnv) (s : Store) (a : Nat) (subject : String) :
    Option Thread × Store :=
  if subject = "" then pickMostRecentThreadRun env s a
  else
    let subjectMatches := subjectFilter (s.get a) subject
    let alloc1 := s.alloc subjectMatches
    if subjectMatches.length ≠ 0 then pickMostRecentThreadRun env alloc1.1 alloc1.2
    else pickMostRecentThreadRun env alloc1.1 a

/-- Modelled from the spec: a terminal state delivered to the caller of a
push correlation (§3 ResolutionOutcome, restricted to the two terminal
states a waiter can reach). -/
inductive TerminalState where
  | resolved (resourceId : String)
  | timedOut
deriving DecidableEq, Repr

/-- Modelled from the spec: the Pending Waiter Registry of §4.1, which has no
implementation under `src/` (only the poll strategy is implemented there).
`active` holds the keys with an active waiter; `terminals` logs, most recent
first, each terminal state surfaced to a caller. -/
structure Registry where
  active : List String
  terminals : List (String × TerminalState)
deriving DecidableEq, Repr

/-- Modelled from the spec: `complete(key, resourceId) -> bool` — atomically
check-and-remove: succeeds exactly once if an active waiter exists for the
key, and is a no-op returning `false` otherwise. -/
def Registry.complete (r : Registry) (k resourceId : String) : Bool × Registry :=
  if k ∈ r.active then
    (true, ⟨r.active.erase k, (k, .resolved resourceId) :: r.terminals⟩)
  else (false, r)

/-- Modelled from the spec: `expire(key) -> bool` — the timeout path's atomic
check-and-remove; fails the waiter with `Timeout` only if `complete` has not
already removed it. -/
def Registry.expire (r : Registry) (k : String) : Bool × Registry :=
  if k ∈ r.active then
    (true, ⟨r.active.erase k, (k, .timedOut) :: r.terminals⟩)
  else (false, r)

/-- One registry operation, as issued by the callback receiver
(`complete`) or the timeout path (`expire`). -/
inductive RegOp where
  | complete (k resourceId : String)
  | expire (k : String)
deriving DecidableEq, Repr

/-- The correlation key an operation targets. -/
def RegOp.key : RegOp → String
  | .complete k _ => k
  | .expire k => k

/-- Apply one operation to the registry. -/
def Registry.apply (r : Registry) : RegOp → Bool × Registry
  | .complete k resourceId => r.complete k resourceId
  | .expire k => r.expire k

/-- Run one interleaving of racing operations (per-key atomicity makes any
concurrent execution equivalent to some sequential order), counting how many
operations targeting key `k` succeeded. -/
def Registry.runCount (k : String) : Registry → List RegOp → Nat
  | _, [] => 0
  | r, op :: ops =>
    (if (r.apply op).1 = true ∧ op.key = k then 1 else 0) +
      Registry.runCount k (r.apply op).2 ops

theorem threadBefore_isTotal (env : JSEnv) : IsTotal Thread (threadBefore env) :=
  ⟨fun _ _ => (le_total _ _).symm⟩

theorem threadBefore_isTrans (env : JSEnv) : IsTrans Thread (threadBefore env) :=
  ⟨fun _ _ _ hab hbc => le_trans hbc hab⟩

/-- The head of the sorted copy is a member of the input with maximal
recency timestamp. -/
theorem pickMostRecentThread_mem_max (env : JSEnv) (threads : List Thread)
    (h : threads ≠ []) :
    ∃ t, pickMostRecentThread env threads = some t ∧ t ∈ threads ∧
      ∀ u ∈ threads, Thread.recencyTs env u ≤ Thread.recencyTs env t := by
  have hlen : threads.length ≠ 0 := fun h0 => h (List.length_eq_zero.mp h0)
  have hperm := List.perm_insertionSort (threadBefore env) threads
  have hsortedne : List.insertionSort (threadBefore env) threads ≠ [] := by
    intro hnil
    have := hperm.length_eq
    rw [hnil] at this
    exact hlen this.symm
  set sorted := List.insertionSort (threadBefore env) threads with hsorted
  have hpair : List.Pairwise (threadBefore env) sorted := by
    haveI := threadBefore_isTotal env
    haveI := threadBefore_isTrans env
    exact List.sorted_insertionSort (threadBefore env) threads
  refine ⟨sorted.head hsortedne, ?_, ?_, ?_⟩
  · simp only [pickMostRecentThread, hlen, if_neg, ← hsorted]
    simp [List.head?_eq_head hsortedne]
  · exact hperm.mem_iff.mp (List.head_mem hsortedne)
  · intro u hu
    have hu' : u ∈ sorted := hperm.mem_iff.mpr hu
    have hu2 : u ∈ sorted.head hsortedne :: sorted.tail :=
      (List.head_cons_tail sorted hsortedne).symm ▸ hu'
    have hcons : List.Pairwise (threadBefore env)
        (sorted.head hsortedne :: sorted.tail) :=
      (List.head_cons_tail sorted hsortedne).symm ▸ hpair
    rcases List.mem_cons.mp hu2 with hhead | htail
    · exact le_of_eq (by rw [hhead])
    · exact (List.pairwise_cons.mp hcons).1 u htail

theorem subjectFilter_subset (threads : List Thread) (subject : String) :
    ∀ t ∈ subjectFilter threads subject, t ∈ threads := by
  intro t ht
  simp only [subjectFilter] at ht
  exact List.mem_of_mem_filter ht

theorem pickThreadBySubject_of_filter_ne (env : JSEnv) (threads : List Thread)
    (subject : String) (hs : subject ≠ "")
    (hm : subjectFilter threads subject ≠ []) :
    pickThreadBySubject env threads subject =
      pickMostRecentThread env (subjectFilter threads subject) := by
  have hlen : (subjectFilter threads subject).length ≠ 0 := by
    simpa [List.length_eq_zero] using hm
  simp [pickThreadBySubject, hs, hlen]

theorem pickThreadBySubject_of_filter_eq (env : JSEnv) (threads : List Thread)
    (subject : String) (hs : subject ≠ "")
    (hm : subjectFilter threads subject = []) :
    pickThreadBySubject env threads subject = pickMostRecentThread env threads := by
  simp [pickThreadBySubject, hs, hm]

theorem pickThreadBySubject_empty (env : JSEnv) (subject : String) :
    pickThreadBySubject env [] subject = none := by
  by_cases hs : subject = ""
  · simp [pickThreadBySubject, hs, pickMostRecentThread]
  · simp [pickThreadBySubject, hs, subjectFilter, pickMostRecentThread]

/-- **C2.** For every non-empty candidate list whose subject-hint filter
(case-insensitive substring match on the thread subject) is non-empty,
`pickThreadBySubject` returns a matching thread with the maximum recency
timestamp; in particular, on the spec's candidates with hint `"Billing"` it
selects the thread with id `"B"`. -/
theorem pickThreadBySubject_max_among_matches (env : JSEnv) (threads : List Thread)
    (subject : String) (hs : subject ≠ "")
    (hm : subjectFilter threads subject ≠ []) :
    (∃ t, pickThreadBySubject env threads subject = some t ∧
        t ∈ subjectFilter threads subject ∧
        ∀ u ∈ subjectFilter threads subject,
          Thread.recencyTs env u ≤ Thread.recencyTs env t) ∧
      pickThreadBySubject defaultEnv exampleThreads "Billing" = some exampleThreadB := by
  refine ⟨?_, by decide⟩
  rw [pickThreadBySubject_of_filter_ne env threads subject hs hm]
  exact pickMostRecentThread_mem_max env _ hm

theorem pickThreadBySubject_max_among_matches_witness :
    (("Billing" : String) ≠ "" ∧ subjectFilter exampleThreads "Billing" ≠ []) ∧
      (∃ t, pickThreadBySubject defaultEnv exampleThreads "Billing" = some t ∧
          t ∈ subjectFilter exampleThreads "Billing" ∧
          ∀ u ∈ subjectFilter exampleThreads "Billing",
            Thread.recencyTs defaultEnv u ≤ Thread.recencyTs defaultEnv t) ∧
      pickThreadBySubject defaultEnv exampleThreads "Billing" = some exampleThreadB :=
  ⟨⟨by decide, by decide⟩,
    pickThreadBySubject_max_among_matches defaultEnv exampleThreads "Billing"
      (by decide) (by decide)⟩

/-- **C3.** For every non-empty candidate list, if the subject-hint filter
yields zero matches, `pickThreadBySubject` falls back to the unfiltered list
and returns the overall most recent candidate instead of failing; on the
spec's example with hint `"Nonexistent"` it selects the thread with id
`"C"`. -/
theorem pickThreadBySubject_fallback_unfiltered (env : JSEnv) (threads : List Thread)
    (subject : String) (hs : subject ≠ "")
    (hm : subjectFilter threads subject = []) (hne : threads ≠ []) :
    (pickThreadBySubject env threads subject = pickMostRecentThread env threads ∧
      ∃ t, pickThreadBySubject env threads subject = some t ∧ t ∈ threads ∧
        ∀ u ∈ threads, Thread.recencyTs env u ≤ Thread.recencyTs env t) ∧
      pickThreadBySubject defaultEnv exampleThreads "Nonexistent" = some exampleThreadC := by
  refine ⟨⟨pickThreadBySubject_of_filter_eq env threads subject hs hm, ?_⟩, by decide⟩
  rw [pickThreadBySubject_of_filter_eq env threads subject hs hm]
  exact pickMostRecentThread_mem_max env threads hne

theorem pickThreadBySubject_fallback_unfiltered_witness :
    (("Nonexistent" : String) ≠ "" ∧ subjectFilter exampleThreads "Nonexistent" = [] ∧
        exampleThreads ≠ []) ∧
      (pickThreadBySubject defaultEnv exampleThreads "Nonexistent" =
          pickMostRecentThread defaultEnv exampleThreads ∧
        ∃ t, pickThreadBySubject defaultEnv exampleThreads "Nonexistent" = some t ∧
          t ∈ exampleThreads ∧
          ∀ u ∈ exampleThreads,
            Thread.recencyTs defaultEnv u ≤ Thread.recencyTs defaultEnv t) ∧
      pickThreadBySubject defaultEnv exampleThreads "Nonexistent" = some exampleThreadC :=
  ⟨⟨by decide, by decide, by decide⟩,
    pickThreadBySubject_fallback_unfiltered defaultEnv exampleThreads "Nonexistent"
      (by decide) (by decide) (by decide)⟩

/-- **C9.** `pickThreadBySubject` returns `null` exactly on the empty list and
otherwise an element of its input (even when the hint matches nothing), and
`findThreadIdByInbox` returns `null` rather than throwing when the listing
endpoint returns no results (empty or missing `results` array). -/
theorem pickThreadBySubject_total_find_null (env : JSEnv) (threads : List Thread)
    (subject : String) :
    (threads = [] → pickThreadBySubject env threads subject = none) ∧
      (threads ≠ [] →
        ∃ t, pickThreadBySubject env threads subject = some t ∧ t ∈ threads) ∧
      (∀ results : Option (List Thread), results.getD [] = [] →
        findThreadIdByInboxPure env subject ⟨results⟩ = none) := by
  refine ⟨?_, ?_, ?_⟩
  · intro h
    subst h
    exact pickThreadBySubject_empty env subject
  · intro hne
    by_cases hs : subject = ""
    · have h := pickMostRecentThread_mem_max env threads hne
      rcases h with ⟨t, ht, htm, _⟩
      exact ⟨t, by simpa [pickThreadBySubject, hs] using ht, htm⟩
    · by_cases hm : subjectFilter threads subject = []
      · have h := pickMostRecentThread_mem_max env threads hne
        rcases h with ⟨t, ht, htm, _⟩
        refine ⟨t, ?_, htm⟩
        rw [pickThreadBySubject_of_filter_eq env threads subject hs hm]
        exact ht
      · have h := pickMostRecentThread_mem_max env (subjectFilter threads subject) hm
        rcases h with ⟨t, ht, htm, _⟩
        refine ⟨t, ?_, subjectFilter_subset threads subject t htm⟩
        rw [pickThreadBySubject_of_filter_ne env threads subject hs hm]
        exact ht
  · intro results hres
    simp only [findThreadIdByInboxPure, hres]
    rw [pickThreadBySubject_empty env subject]

theorem pickThreadBySubject_total_find_null_witness :
    pickThreadBySubject defaultEnv [] "x" = none ∧
      (∃ t, pickThreadBySubject defaultEnv exampleThreads "zzz" = some t ∧
        t ∈ exampleThreads) ∧
      findThreadIdByInboxPure defaultEnv "x" ⟨some []⟩ = none :=
  ⟨(pickThreadBySubject_total_find_null defaultEnv [] "x").1 rfl,
    (pickThreadBySubject_total_find_null defaultEnv exampleThreads "zzz").2.1
      (by decide),
    (pickThreadBySubject_total_find_null defaultEnv exampleThreads "x").2.2
      (some []) (by decide)⟩

/-- If every attempt in the window gets a response but selects no thread, the
loop runs all `r` attempts, logging one query each and sleeping between
consecutive attempts only. -/
theorem pollLoopGo_all_none (env : JSEnv) (inboxId : String) (after : Int)
    (subject : String) (responses : Nat → HSResponse) :
    ∀ (r attempt : Nat),
      (∀ i, attempt ≤ i → i < attempt + r → attemptNoThread env subject responses i) →
      pollLoopGo env inboxId after subject responses attempt r =
        { exit := .exhausted,
          queryLog := List.replicate r (findThreadIdByInboxParams inboxId after),
          sleeps := r - 1 } := by
  intro r
  induction r with
  | zero => intro attempt _; simp [pollLoopGo]
  | succ r ih =>
    intro attempt h
    obtain ⟨data, hresp, hfind⟩ := h attempt le_rfl (by omega)
    simp only [pollLoopGo, hresp, hfind]
    cases r with
    | zero => simp [List.replicate]
    | succ r' =>
      rw [if_neg (Nat.succ_ne_zero r')]
      rw [ih (attempt + 1) (fun i h1 h2 => h i (by omega) (by omega))]
      simp [List.replicate_succ]

/-- Skipping a prefix of `k` failed attempts: the loop behaves like the loop
started at `attempt + k` with `r - k` attempts left, after `k` logged queries
and `k` sleeps. -/
theorem pollLoopGo_skip (env : JSEnv) (inboxId : String) (after : Int)
    (subject : String) (responses : Nat → HSResponse) :
    ∀ (k attempt r : Nat), k < r →
      (∀ i, i < k → attemptNoThread env subject responses (attempt + i)) →
      pollLoopGo env inboxId after subject responses attempt r =
        { exit := (pollLoopGo env inboxId after subject responses (attempt + k)
            (r - k)).exit,
          queryLog := List.replicate k (findThreadIdByInboxParams inboxId after) ++
            (pollLoopGo env inboxId after subject responses (attempt + k)
              (r - k)).queryLog,
          sleeps := k + (pollLoopGo env inboxId after subject responses (attempt + k)
            (r - k)).sleeps } := by
  intro k
  induction k with
  | zero => intro attempt r _ _; simp
  | succ k ih =>
    intro attempt r hk hfail
    obtain ⟨data, hresp, hfind⟩ := hfail 0 (Nat.succ_pos k)
    rw [Nat.add_zero] at hresp
    obtain ⟨r', rfl⟩ : ∃ r', r = r' + 1 := ⟨r - 1, by omega⟩
    have hr' : r' ≠ 0 := by omega
    have hfail' : ∀ i, i < k → attemptNoThread env subject responses (attempt + 1 + i) := by
      intro i hi
      have := hfail (i + 1) (by omega)
      rwa [show attempt + (i + 1) = attempt + 1 + i by omega] at this
    have e1 : attempt + (k + 1) = attempt + 1 + k := by omega
    have e2 : r' + 1 - (k + 1) = r' - k := by omega
    rw [e1, e2]
    simp only [pollLoopGo, hresp, hfind]
    rw [if_neg hr']
    rw [ih (attempt + 1) r' (by omega) hfail']
    simp [List.replicate_succ]
    omega

/-- Every query the loop issues carries the boundary and limit it was
started with. -/
theorem pollLoopGo_queryLog_const (env : JSEnv) (inboxId : String) (after : Int)
    (subject : String) (responses : Nat → HSResponse) :
    ∀ (r attempt : Nat),
      ∀ q ∈ (pollLoopGo env inboxId after subject responses attempt r).queryLog,
        q = findThreadIdByInboxParams inboxId after := by
  intro r
  induction r with
  | zero => intro attempt q hq; simp [pollLoopGo] at hq
  | succ r ih =>
    intro attempt q hq
    cases hresp : responses attempt with
    | apiError msg =>
      simp only [pollLoopGo, hresp] at hq
      simpa using hq
    | ok data =>
      cases hfind : findThreadIdByInboxPure env subject data with
      | some tid =>
        simp only [pollLoopGo, hresp, hfind] at hq
        simpa using hq
      | none =>
        by_cases hr : r = 0
        · subst hr
          simp only [pollLoopGo, hresp, hfind] at hq
          simpa using hq
        · simp only [pollLoopGo, hresp, hfind, if_neg hr] at hq
          rcases List.mem_cons.mp hq with hq | hq
          · exact hq
          · exact ih (attempt + 1) q hq

/-- The phase surfaces the loop's query log unchanged, whatever the exit. -/
theorem sendEmailPollPhase_queryLog (env : JSEnv) (responses : Nat → HSResponse)
    (pollAttempts : Nat) (inboxId : String) (emailSentAt lookbackMs : Int)
    (subject : String) :
    (sendEmailPollPhase env responses pollAttempts inboxId emailSentAt lookbackMs
        subject).queryLog =
      (pollLoopGo env inboxId (emailSentAt - lookbackMs) subject responses 0
        pollAttempts).queryLog := by
  simp only [sendEmailPollPhase]
  rcases (pollLoopGo env inboxId (emailSentAt - lookbackMs) subject responses 0
      pollAttempts).exit with msg | tid <;> rfl

/-- **C1.** The follow-up annotation is attempted if and only if the polling
loop resolved a (truthy) thread id; whenever all polling attempts fail to
find a thread, `sendEmail` throws
`Unable to locate HubSpot thread for internal comment` and never posts the
internal comment. -/
theorem sendEmail_comment_iff_resolved (env : JSEnv) (responses : Nat → HSResponse)
    (n : Nat) (inboxId : String) (emailSentAt lookbackMs : Int) (subject : String) :
    (∀ t, (sendEmailPollPhase env responses n inboxId emailSentAt lookbackMs
        subject).commentAttemptedOn = some t ↔
      (sendEmailPollPhase env responses n inboxId emailSentAt lookbackMs
        subject).outcome = .broke t) ∧
      ((∀ i, i < n → attemptNoThread env subject responses i) →
        (sendEmailPollPhase env responses n inboxId emailSentAt lookbackMs
            subject).outcome = .thrown exhaustedMsg ∧
          (sendEmailPollPhase env responses n inboxId emailSentAt lookbackMs
            subject).commentAttemptedOn = none) := by
  constructor
  · intro t
    simp only [sendEmailPollPhase]
    rcases (pollLoopGo env inboxId (emailSentAt - lookbackMs) subject responses 0
        n).exit with msg | tid <;> simp [exhaustedMsg]
  · intro h
    have hrun := pollLoopGo_all_none env inboxId (emailSentAt - lookbackMs) subject
      responses n 0 (fun i h1 h2 => h i (by omega))
    simp only [sendEmailPollPhase, hrun]
    exact ⟨trivial, trivial⟩

theorem sendEmail_comment_iff_resolved_witness :
    ((sendEmailPollPhase defaultEnv (fun _ => .ok ⟨some []⟩) 3 "42" 1000 600
        "s").commentAttemptedOn = some (JSVal.str "B") ↔
      (sendEmailPollPhase defaultEnv (fun _ => .ok ⟨some []⟩) 3 "42" 1000 600
        "s").outcome = .broke (JSVal.str "B")) ∧
      ((sendEmailPollPhase defaultEnv (fun _ => .ok ⟨some []⟩) 3 "42" 1000 600
          "s").outcome = .thrown exhaustedMsg ∧
        (sendEmailPollPhase defaultEnv (fun _ => .ok ⟨some []⟩) 3 "42" 1000 600
          "s").commentAttemptedOn = none) :=
  ⟨(sendEmail_comment_iff_resolved defaultEnv (fun _ => .ok ⟨some []⟩) 3 "42" 1000
      600 "s").1 (JSVal.str "B"),
    (sendEmail_comment_iff_resolved defaultEnv (fun _ => .ok ⟨some []⟩) 3 "42" 1000
      600 "s").2 (fun i _ => ⟨⟨some []⟩, rfl, by decide⟩)⟩

/-- **C4.** When every polling attempt finds no candidate thread, the phase
issues exactly `pollAttempts` listing queries and `pollAttempts - 1`
inter-attempt sleeps, then fails with the exhausted outcome. -/
theorem sendEmail_exhausted_counts (env : JSEnv) (responses : Nat → HSResponse)
    (n : Nat) (inboxId : String) (emailSentAt lookbackMs : Int) (subject : String)
    (h : ∀ i, i < n → attemptNoThread env subject responses i) :
    (sendEmailPollPhase env responses n inboxId emailSentAt lookbackMs
        subject).outcome = .thrown exhaustedMsg ∧
      (sendEmailPollPhase env responses n inboxId emailSentAt lookbackMs
        subject).queryLog.length = n ∧
      (sendEmailPollPhase env responses n inboxId emailSentAt lookbackMs
        subject).sleeps = n - 1 := by
  have hrun := pollLoopGo_all_none env inboxId (emailSentAt - lookbackMs) subject
    responses n 0 (fun i h1 h2 => h i (by omega))
  simp only [sendEmailPollPhase, hrun]
  simp

theorem sendEmail_exhausted_counts_witness :
    (sendEmailPollPhase defaultEnv (fun _ => .ok ⟨some []⟩) 3 "42" 1000 600
        "s").outcome = .thrown exhaustedMsg ∧
      (sendEmailPollPhase defaultEnv (fun _ => .ok ⟨some []⟩) 3 "42" 1000 600
        "s").queryLog.length = 3 ∧
      (sendEmailPollPhase defaultEnv (fun _ => .ok ⟨some []⟩) 3 "42" 1000 600
        "s").sleeps = 2 :=
  sendEmail_exhausted_counts defaultEnv (fun _ => .ok ⟨some []⟩) 3 "42" 1000 600 "s"
    (fun i _ => ⟨⟨some []⟩, rfl, by decide⟩)

/-- **C6.** If attempt `k` (0-based) selects a candidate, the loop returns its
id immediately: exactly `k + 1` queries, exactly `k` sleeps (only between
consecutive unsuccessful attempts), and the comment is posted to that id. -/
theorem sendEmail_found_stops_immediately (env : JSEnv) (responses : Nat → HSResponse)
    (n : Nat) (inboxId : String) (emailSentAt lookbackMs : Int) (subject : String)
    (k : Nat) (data : ListResponse) (tid : JSVal) (hk : k < n)
    (hfail : ∀ i, i < k → attemptNoThread env subject responses i)
    (hresp : responses k = .ok data)
    (hfound : findThreadIdByInboxPure env subject data = some tid) :
    (sendEmailPollPhase env responses n inboxId emailSentAt lookbackMs
        subject).outcome = .broke tid ∧
      (sendEmailPollPhase env responses n inboxId emailSentAt lookbackMs
        subject).queryLog.length = k + 1 ∧
      (sendEmailPollPhase env responses n inboxId emailSentAt lookbackMs
        subject).sleeps = k ∧
      (sendEmailPollPhase env responses n inboxId emailSentAt lookbackMs
        subject).commentAttemptedOn = some tid := by
  have hrun := pollLoopGo_skip env inboxId (emailSentAt - lookbackMs) subject
    responses k 0 n hk (fun i hi => by simpa using hfail i hi)
  simp only [Nat.zero_add] at hrun
  obtain ⟨m, hm⟩ : ∃ m, n - k = m + 1 := ⟨n - k - 1, by omega⟩
  rw [hm] at hrun
  have hstep : pollLoopGo env inboxId (emailSentAt - lookbackMs) subject responses k
      (m + 1) =
      { exit := .broke tid,
        queryLog := [findThreadIdByInboxParams inboxId (emailSentAt - lookbackMs)],
        sleeps := 0 } := by
    simp only [pollLoopGo, hresp, hfound]
  rw [hstep] at hrun
  simp only [sendEmailPollPhase, hrun]
  simp

theorem sendEmail_found_stops_immediately_witness :
    (sendEmailPollPhase defaultEnv
        (fun i => if i = 1 then .ok ⟨some exampleThreads⟩ else .ok ⟨some []⟩) 3 "42"
        1000 600 "Billing").outcome = .broke (JSVal.str "B") ∧
      (sendEmailPollPhase defaultEnv
        (fun i => if i = 1 then .ok ⟨some exampleThreads⟩ else .ok ⟨some []⟩) 3 "42"
        1000 600 "Billing").queryLog.length = 1 + 1 ∧
      (sendEmailPollPhase defaultEnv
        (fun i => if i = 1 then .ok ⟨some exampleThreads⟩ else .ok ⟨some []⟩) 3 "42"
        1000 600 "Billing").sleeps = 1 ∧
      (sendEmailPollPhase defaultEnv
        (fun i => if i = 1 then .ok ⟨some exampleThreads⟩ else .ok ⟨some []⟩) 3 "42"
        1000 600 "Billing").commentAttemptedOn = some (JSVal.str "B") :=
  sendEmail_found_stops_immediately defaultEnv
    (fun i => if i = 1 then .ok ⟨some exampleThreads⟩ else .ok ⟨some []⟩) 3 "42" 1000
    600 "Billing" 1 ⟨some exampleThreads⟩ (JSVal.str "B") (by omega)
    (fun i hi => by
      have h0 : i = 0 := by omega
      subst h0
      exact ⟨⟨some []⟩, rfl, by decide⟩)
    rfl (by decide)

/-- **C7.** Every polling attempt queries the listing endpoint with the same
fixed lookback boundary `emailSentAt - lookbackMs`, computed once before the
loop, and with page size limit 20; the boundary is not recomputed between
attempts. -/
theorem sendEmail_fixed_query_boundary (env : JSEnv) (responses : Nat → HSResponse)
    (n : Nat) (inboxId : String) (emailSentAt lookbackMs : Int) (subject : String) :
    ∀ q ∈ (sendEmailPollPhase env responses n inboxId emailSentAt lookbackMs
        subject).queryLog,
      q.latestMessageTimestampAfter = emailSentAt - lookbackMs ∧ q.limit = 20 ∧
        q = findThreadIdByInboxParams inboxId (emailSentAt - lookbackMs) := by
  intro q hq
  rw [sendEmailPollPhase_queryLog] at hq
  have := pollLoopGo_queryLog_const env inboxId (emailSentAt - lookbackMs) subject
    responses n 0 q hq
  subst this
  exact ⟨rfl, rfl, rfl⟩

theorem sendEmail_fixed_query_boundary_witness :
    findThreadIdByInboxParams "42" 400 ∈
        (sendEmailPollPhase defaultEnv (fun _ => .ok ⟨some []⟩) 3 "42" 1000 600
          "s").queryLog ∧
      ((findThreadIdByInboxParams "42" 400).latestMessageTimestampAfter =
          (1000 : Int) - 600 ∧
        (findThreadIdByInboxParams "42" 400).limit = 20 ∧
        findThreadIdByInboxParams "42" 400 =
          findThreadIdByInboxParams "42" ((1000 : Int) - 600)) :=
  ⟨by decide,
    sendEmail_fixed_query_boundary defaultEnv (fun _ => .ok ⟨some []⟩) 3 "42" 1000 600
      "s" (findThreadIdByInboxParams "42" 400) (by decide)⟩

/-- **C5 counterexample.** A transport error on attempt 0 of 3 aborts the
whole resolution: the outcome is the propagated API error after exactly one
query and no sleeps, even though attempt 1 would have found thread `"B"` —
the loop does not continue retrying. -/
theorem sendEmail_transport_error_no_retry_cx :
    (sendEmailPollPhase defaultEnv
        (fun i => if i = 0 then .apiError "HubSpot API error 500: upstream"
          else .ok ⟨some exampleThreads⟩) 3 "42" 1000 600 "Billing").outcome =
        .thrown "HubSpot API error 500: upstream" ∧
      (sendEmailPollPhase defaultEnv
        (fun i => if i = 0 then .apiError "HubSpot API error 500: upstream"
          else .ok ⟨some exampleThreads⟩) 3 "42" 1000 600 "Billing").queryLog.length
        = 1 ∧
      (sendEmailPollPhase defaultEnv
        (fun i => if i = 0 then .apiError "HubSpot API error 500: upstream"
          else .ok ⟨some exampleThreads⟩) 3 "42" 1000 600 "Billing").sleeps = 0 ∧
      (sendEmailPollPhase defaultEnv
        (fun i => if i = 0 then .apiError "HubSpot API error 500: upstream"
          else .ok ⟨some exampleThreads⟩) 3 "42" 1000 600
          "Billing").commentAttemptedOn = none ∧
      findThreadIdByInboxPure defaultEnv "Billing" ⟨some exampleThreads⟩ =
        some (JSVal.str "B") := by
  refine ⟨?_, ?_, ?_, ?_, ?_⟩ <;> decide

/-- **C5 (amended).** If the listing query throws a transport/API error on
any attempt (after `k` attempts that found nothing), `sendEmail` immediately
propagates that error: exactly `k + 1` queries are made, no retry of the
failed attempt and no further attempts occur, and the internal comment is
never posted. -/
theorem sendEmail_transport_error_aborts (env : JSEnv) (responses : Nat → HSResponse)
    (n : Nat) (inboxId : String) (emailSentAt lookbackMs : Int) (subject : String)
    (k : Nat) (msg : String) (hk : k < n)
    (hfail : ∀ i, i < k → attemptNoThread env subject responses i)
    (herr : responses k = .apiError msg) :
    (sendEmailPollPhase env responses n inboxId emailSentAt lookbackMs
        subject).outcome = .thrown msg ∧
      (sendEmailPollPhase env responses n inboxId emailSentAt lookbackMs
        subject).queryLog.length = k + 1 ∧
      (sendEmailPollPhase env responses n inboxId emailSentAt lookbackMs
        subject).sleeps = k ∧
      (sendEmailPollPhase env responses n inboxId emailSentAt lookbackMs
        subject).commentAttemptedOn = none := by
  have hrun := pollLoopGo_skip env inboxId (emailSentAt - lookbackMs) subject
    responses k 0 n hk (fun i hi => by simpa using hfail i hi)
  simp only [Nat.zero_add] at hrun
  obtain ⟨m, hm⟩ : ∃ m, n - k = m + 1 := ⟨n - k - 1, by omega⟩
  rw [hm] at hrun
  have hstep : pollLoopGo env inboxId (emailSentAt - lookbackMs) subject responses k
      (m + 1) =
      { exit := .thrown msg,
        queryLog := [findThreadIdByInboxParams inboxId (emailSentAt - lookbackMs)],
        sleeps := 0 } := by
    simp only [pollLoopGo, herr]
  rw [hstep] at hrun
  simp only [sendEmailPollPhase, hrun]
  simp

theorem sendEmail_transport_error_aborts_witness :
    (sendEmailPollPhase defaultEnv
        (fun i => if i = 0 then .apiError "HubSpot API error 500: upstream"
          else .ok ⟨some exampleThreads⟩) 3 "42" 1000 600 "Billing").outcome =
        .thrown "HubSpot API error 500: upstream" ∧
      (sendEmailPollPhase defaultEnv
        (fun i => if i = 0 then .apiError "HubSpot API error 500: upstream"
          else .ok ⟨some exampleThreads⟩) 3 "42" 1000 600 "Billing").queryLog.length
        = 0 + 1 ∧
      (sendEmailPollPhase defaultEnv
        (fun i => if i = 0 then .apiError "HubSpot API error 500: upstream"
          else .ok ⟨some exampleThreads⟩) 3 "42" 1000 600 "Billing").sleeps = 0 ∧
      (sendEmailPollPhase defaultEnv
        (fun i => if i = 0 then .apiError "HubSpot API error 500: upstream"
          else .ok ⟨some exampleThreads⟩) 3 "42" 1000 600
          "Billing").commentAttemptedOn = none :=
  sendEmail_transport_error_aborts defaultEnv
    (fun i => if i = 0 then .apiError "HubSpot API error 500: upstream"
      else .ok ⟨some exampleThreads⟩) 3 "42" 1000 600 "Billing" 0
    "HubSpot API error 500: upstream" (by omega) (fun i hi => absurd hi (by omega))
    rfl

theorem Store.get_alloc_lt (s : Store) (l : List Thread) (j : Nat)
    (hj : j < s.arrays.length) : (s.alloc l).1.get j = s.get j := by
  simp only [Store.alloc, Store.get]
  rw [List.getD_append _ _ _ j hj]

theorem Store.get_alloc_self (s : Store) (l : List Thread) :
    (s.alloc l).1.get (s.alloc l).2 = l := by
  simp only [Store.alloc, Store.get]
  rw [List.getD_eq_getElem?_getD, List.getElem?_concat_length]
  rfl

theorem Store.get_set_ne (s : Store) (a : Nat) (l : List Thread) (j : Nat)
    (hne : a ≠ j) : (s.set a l).get j = s.get j := by
  simp only [Store.set, Store.get]
  rw [List.getD_eq_getElem?_getD, List.getD_eq_getElem?_getD,
    List.getElem?_set_ne hne]

theorem Store.get_set_self (s : Store) (a : Nat) (l : List Thread)
    (ha : a < s.arrays.length) : (s.set a l).get a = l := by
  simp only [Store.set, Store.get]
  rw [List.getD_eq_getElem?_getD, List.getElem?_set_self ha]
  rfl

/-- The sort-on-a-copy never writes any previously existing array. -/
theorem pickMostRecentThreadRun_frame (env : JSEnv) (s : Store) (a : Nat) :
    ∀ j, j < s.arrays.length →
      (pickMostRecentThreadRun env s a).2.get j = s.get j := by
  intro j hj
  simp only [pickMostRecentThreadRun]
  by_cases h0 : (s.get a).length = 0
  · rw [if_pos h0]
  · rw [if_neg h0]
    have hne : (s.alloc (s.get a)).2 ≠ j := fun h => absurd hj (by simp [Store.alloc, ← h])
    rw [Store.get_set_ne _ _ _ j hne]
    exact Store.get_alloc_lt s _ j hj

/-- The heap run returns the same thread as the pure `pickMostRecentThread`
of the argument array's contents. -/
theorem pickMostRecentThreadRun_fst (env : JSEnv) (s : Store) (a : Nat) :
    (pickMostRecentThreadRun env s a).1 = pickMostRecentThread env (s.get a) := by
  simp only [pickMostRecentThreadRun, pickMostRecentThread]
  by_cases h0 : (s.get a).length = 0
  · rw [if_pos h0, if_pos h0]
  · rw [if_neg h0, if_neg h0]
    have hlt : (s.alloc (s.get a)).2 < (s.alloc (s.get a)).1.arrays.length := by
      simp [Store.alloc]
    rw [Store.get_set_self _ _ _ hlt, Store.get_alloc_self]

/-- The filter-then-pick pipeline never writes any previously existing
array. -/
theorem pickThreadBySubjectRun_frame (env : JSEnv) (s : Store) (a : Nat)
    (subject : String) :
    ∀ j, j < s.arrays.length →
      (pickThreadBySubjectRun env s a subject).2.get j = s.get j := by
  intro j hj
  simp only [pickThreadBySubjectRun]
  by_cases hs : subject = ""
  · rw [if_pos hs]
    exact pickMostRecentThreadRun_frame env s a j hj
  · rw [if_neg hs]
    have hj1 : j < (s.alloc (subjectFilter (s.get a) subject)).1.arrays.length := by
      simp only [Store.alloc, List.length_append]
      omega
    by_cases hm : (subjectFilter (s.get a) subject).length ≠ 0
    · rw [if_pos hm]
      rw [pickMostRecentThreadRun_frame env _ _ j hj1]
      exact Store.get_alloc_lt s _ j hj
    · rw [if_neg hm]
      rw [pickMostRecentThreadRun_frame env _ _ j hj1]
      exact Store.get_alloc_lt s _ j hj

/-- The heap run returns the same thread as the pure `pickThreadBySubject`
of the argument array's contents. -/
theorem pickThreadBySubjectRun_fst (env : JSEnv) (s : Store) (a : Nat)
    (subject : String) (ha : a < s.arrays.length) :
    (pickThreadBySubjectRun env s a subject).1 =
      pickThreadBySubject env (s.get a) subject := by
  simp only [pickThreadBySubjectRun, pickThreadBySubject]
  by_cases hs : subject = ""
  · rw [if_pos hs, if_pos hs]
    exact pickMostRecentThreadRun_fst env s a
  · rw [if_neg hs, if_neg hs]
    by_cases hm : (subjectFilter (s.get a) subject).length ≠ 0
    · rw [if_pos hm, if_pos hm]
      rw [pickMostRecentThreadRun_fst]
      rw [Store.get_alloc_self]
    · rw [if_neg hm, if_neg hm]
      rw [pickMostRecentThreadRun_fst]
      rw [Store.get_alloc_lt s _ a ha]

/-- **C10.** `pickMostRecentThread` sorts a copy and `pickThreadBySubject`
only filters: in the array-mutation model, after either call the input array
is element-for-element unchanged, and the returned thread agrees with the
pure functions of the input's contents. -/
theorem pickers_do_not_mutate_input (env : JSEnv) (s : Store) (a : Nat)
    (subject : String) (ha : a < s.arrays.length) :
    ((pickMostRecentThreadRun env s a).2.get a = s.get a ∧
        (pickMostRecentThreadRun env s a).1 = pickMostRecentThread env (s.get a)) ∧
      ((pickThreadBySubjectRun env s a subject).2.get a = s.get a ∧
        (pickThreadBySubjectRun env s a subject).1 =
          pickThreadBySubject env (s.get a) subject) :=
  ⟨⟨pickMostRecentThreadRun_frame env s a a ha, pickMostRecentThreadRun_fst env s a⟩,
    ⟨pickThreadBySubjectRun_frame env s a subject a ha,
      pickThreadBySubjectRun_fst env s a subject ha⟩⟩

theorem pickers_do_not_mutate_input_witness :
    ((pickMostRecentThreadRun defaultEnv ⟨[exampleThreads]⟩ 0).2.get 0 =
          Store.get ⟨[exampleThreads]⟩ 0 ∧
        (pickMostRecentThreadRun defaultEnv ⟨[exampleThreads]⟩ 0).1 =
          pickMostRecentThread defaultEnv (Store.get ⟨[exampleThreads]⟩ 0)) ∧
      ((pickThreadBySubjectRun defaultEnv ⟨[exampleThreads]⟩ 0 "Billing").2.get 0 =
          Store.get ⟨[exampleThreads]⟩ 0 ∧
        (pickThreadBySubjectRun defaultEnv ⟨[exampleThreads]⟩ 0 "Billing").1 =
          pickThreadBySubject defaultEnv (Store.get ⟨[exampleThreads]⟩ 0) "Billing") :=
  pickers_do_not_mutate_input defaultEnv ⟨[exampleThreads]⟩ 0 "Billing" (by decide)

/-- Either an operation's key has an active waiter and the operation
succeeds, removing exactly that waiter, or it is a no-op returning
`false`. -/
theorem Registry.apply_cases (r : Registry) (op : RegOp) :
    (op.key ∈ r.active ∧ (r.apply op).1 = true ∧
        (r.apply op).2.active = r.active.erase op.key) ∨
      (op.key ∉ r.active ∧ r.apply op = (false, r)) := by
  cases op with
  | complete k resourceId =>
    by_cases hmem : k ∈ r.active
    · exact Or.inl ⟨hmem, by simp [Registry.apply, Registry.complete, hmem, RegOp.key]⟩
    · exact Or.inr ⟨hmem, by simp [Registry.apply, Registry.complete, hmem]⟩
  | expire k =>
    by_cases hmem : k ∈ r.active
    · exact Or.inl ⟨hmem, by simp [Registry.apply, Registry.expire, hmem, RegOp.key]⟩
    · exact Or.inr ⟨hmem, by simp [Registry.apply, Registry.expire, hmem]⟩

/-- Across any interleaving, the number of successful terminal operations on
a key is bounded by the key's multiplicity among the active waiters. -/
theorem Registry.runCount_le_count (k : String) :
    ∀ (ops : List RegOp) (r : Registry),
      Registry.runCount k r ops ≤ r.active.count k := by
  intro ops
  induction ops with
  | nil => intro r; simp [Registry.runCount]
  | cons op ops ih =>
    intro r
    simp only [Registry.runCount]
    rcases Registry.apply_cases r op with ⟨hmem, hok, hact⟩ | ⟨hmem, heq⟩
    · by_cases hk : op.key = k
      · subst hk
        have h1 : 0 < r.active.count op.key := List.count_pos_iff.mpr hmem
        have h2 := ih (r.apply op).2
        rw [hact, List.count_erase_self] at h2
        rw [if_pos ⟨hok, rfl⟩]
        omega
      · have h2 := ih (r.apply op).2
        rw [hact, List.count_erase_of_ne (fun h => hk h.symm)] at h2
        rw [if_neg (fun h => hk h.2)]
        omega
    · rw [heq]
      rw [if_neg (by simp)]
      simpa using ih r

/-- **C8.** (Pending Waiter Registry, modelled from the spec.) For a key
whose active waiter is unique, at most one registry operation targeting it
ever succeeds across any interleaving of `complete` and `expire` calls; an
operation finding no active waiter is a no-op; and with an active waiter
present, whichever of `complete`/`expire` runs first succeeds and the other
then fails — the caller observes exactly one terminal state. -/
theorem registry_complete_expire_exclusive (r : Registry) (k resourceId : String)
    (hk : r.active.count k ≤ 1) :
    (∀ ops : List RegOp, Registry.runCount k r ops ≤ 1) ∧
      (k ∉ r.active → r.complete k resourceId = (false, r) ∧
        r.expire k = (false, r)) ∧
      (k ∈ r.active →
        ((r.complete k resourceId).1 = true ∧
            ((r.complete k resourceId).2.expire k).1 = false) ∧
          ((r.expire k).1 = true ∧
            ((r.expire k).2.complete k resourceId).1 = false)) := by
  refine ⟨?_, ?_, ?_⟩
  · intro ops
    exact le_trans (Registry.runCount_le_count k ops r) hk
  · intro hmem
    constructor
    · simp [Registry.complete, hmem]
    · simp [Registry.expire, hmem]
  · intro hmem
    have h1 : 0 < r.active.count k := List.count_pos_iff.mpr hmem
    have hcount := List.count_erase_self k r.active
    have hzero : (r.active.erase k).count k = 0 := by omega
    have hnot : k ∉ r.active.erase k := List.count_eq_zero.mp hzero
    constructor
    · constructor
      · simp [Registry.complete, hmem]
      · simp [Registry.complete, Registry.expire, hmem, hnot]
    · constructor
      · simp [Registry.expire, hmem]
      · simp [Registry.expire, Registry.complete, hmem, hnot]

theorem registry_complete_expire_exclusive_witness :
    Registry.runCount "alice" ⟨["alice"], []⟩
        [RegOp.complete "alice" "thread-1", RegOp.expire "alice"] ≤ 1 ∧
      ((Registry.complete ⟨["alice"], []⟩ "alice" "thread-1").1 = true ∧
          ((Registry.complete ⟨["alice"], []⟩ "alice" "thread-1").2.expire
            "alice").1 = false) ∧
        ((Registry.expire ⟨["alice"], []⟩ "alice").1 = true ∧
          ((Registry.expire ⟨["alice"], []⟩ "alice").2.complete "alice"
            "thread-1").1 = false) :=
  ⟨(registry_complete_expire_exclusive ⟨["alice"], []⟩ "alice" "thread-1"
      (by decide)).1 [RegOp.complete "alice" "thread-1", RegOp.expire "alice"],
    (registry_complete_expire_exclusive ⟨["alice"], []⟩ "alice" "thread-1"
      (by decide)).2.2 (by decide)⟩
